import Mathlib

/-!
Verification development for `majoralph.py`, a "ralph loop" wrapper that
repeatedly spawns a fresh agent subprocess and persists state in repository
files (`prd.json`, `progress.txt`, `AGENTS.md`).

The Python source is shallowly embedded below:
  * JSON documents become an inductive `Json` type; Python `dict.get` becomes
    association-list lookup; Python truthiness (`bool(x)`) becomes `pyTruthy`.
  * The filesystem becomes a flat association list from path strings to file
    contents; `json.loads` / `json.dumps` are external library calls and are
    carried as explicit `parse` / `dump` parameters.
  * The subprocess polling loop of `run_tee` consumes an explicit trace of
    observations (a line became available / no line and still running / no
    line and exited), each tagged with the elapsed wall-clock time that
    `monotonic() - start` would report at that loop head.
  * The iteration loop of `entry` consumes a list of per-iteration inputs
    (the ledger as reloaded at the top of the cycle, the subprocess outcome,
    and the ledger as reloaded after the run).
-/

namespace MajorAlph

/-- Json values as produced by `json.loads`.  Numbers are modelled as
integers: the ledger schema only uses integer fields (`priority`), and no
theorem below depends on float behaviour. -/
inductive Json where
  | null : Json
  | bool (b : Bool) : Json
  | num (n : Int) : Json
  | str (s : String) : Json
  | arr (elems : List Json) : Json
  | obj (entries : List (String × Json)) : Json

/-- Python dicts from parsed JSON, as association lists (first binding wins;
`json.loads` never produces duplicate keys). -/
abbrev JsonDict := List (String × Json)

/-- Python `d.get(k)` on a dict: `some v` if the key is present, else `none`
(Python `None`). -/
def dictGet (d : JsonDict) (k : String) : Option Json :=
  match d with
  | [] => none
  | (k1, v) :: rest => if k1 = k then some v else dictGet rest k

/-- Python truthiness `bool(x)` on a parsed JSON value. -/
def pyTruthy : Json → Bool
  | .null => false
  | .bool b => b
  | .num n => n != 0
  | .str s => s != ""
  | .arr l => !l.isEmpty
  | .obj l => !l.isEmpty

/-- Python truthiness of a `d.get(k)` result (`bool(None)` is `False`). -/
def optTruthy : Option Json → Bool
  | none => false
  | some v => pyTruthy v

/-- Python `s.get(k)` where `s` is an element of the stories list.  The code
assumes stories are dicts; on a non-dict element Python would raise
`AttributeError`, so every theorem that inspects story fields restricts to
object stories. -/
def pyGet (s : Json) (k : String) : Option Json :=
  match s with
  | .obj d => dictGet d k
  | _ => none

/-- Python `\s`-style whitespace predicate restricted to ASCII (space, tab,
newline, carriage return, vertical tab, form feed). -/
def isPyWs (c : Char) : Bool :=
  c = ' ' || c = '\t' || c = '\n' || c = '\r' || c = '\x0b' || c = '\x0c'

/-- Python `str.strip()`: remove leading and trailing whitespace. -/
def pyStrip (s : String) : String :=
  ⟨((s.data.dropWhile isPyWs).reverse.dropWhile isPyWs).reverse⟩

/-- Python `str(x)` on a parsed JSON value.  Container rendering is not
reproduced character-for-character (no theorem evaluates it); the scalar
cases match CPython. -/
def pyStr : Json → String
  | .null => "None"
  | .bool true => "True"
  | .bool false => "False"
  | .num n => toString n
  | .str s => s
  | .arr _ => "[...]"
  | .obj _ => "{...}"

/-- Source constant `PRDTEMPLATE`: the default prd document. -/
def PRDTEMPLATE : JsonDict :=
  [ ("project", .str "MyProject"),
    ("branchName", .str "ralph/my-feature"),
    ("description", .str "Describe the feature here"),
    ("userStories", .arr
      [ .obj
          [ ("id", .str "US-001"),
            ("title", .str "First small story"),
            ("description", .str "As a user, ..."),
            ("acceptanceCriteria", .arr
              [.str "Typecheck passes", .str "Tests pass (if present)"]),
            ("priority", .num 1),
            ("passes", .bool false),
            ("notes", .str "") ] ]) ]

/-- Function `prd_stories`: the stories list, preferring the `userStories`
key when its value is a list, falling back to `stories` when its value is a
list, else the empty list. -/
def prd_stories (prd : JsonDict) : List Json :=
  match dictGet prd "userStories" with
  | some (.arr l) => l
  | _ =>
    match dictGet prd "stories" with
    | some (.arr l) => l
    | _ => []

/-- Function `prd_progress`: `(done, total)` where `done` counts stories with
a truthy `passes` field and `total` is the story count. -/
def prd_progress (prd : JsonDict) : Nat × Nat :=
  ((prd_stories prd).countP (fun s => optTruthy (pyGet s "passes")),
   (prd_stories prd).length)

/-- Function `prd_done`: `bool(stories) and all(bool(s.get("passes")) for s
in stories)`. -/
def prd_done (prd : JsonDict) : Bool :=
  !(prd_stories prd).isEmpty
    && (prd_stories prd).all (fun s => optTruthy (pyGet s "passes"))

/-- Function `prd_branch`: `str(prd.get("branchName") or prd.get("branch")
or "").strip()` — first truthy of the two keys, rendered and stripped. -/
def prd_branch (prd : JsonDict) : String :=
  let v : Json :=
    if optTruthy (dictGet prd "branchName") then
      (dictGet prd "branchName").getD .null
    else if optTruthy (dictGet prd "branch") then
      (dictGet prd "branch").getD .null
    else .str ""
  pyStrip (pyStr v)

/-! Filesystem model: a flat association list from path strings to file
contents.  Directories are implicit (a directory "exists" when some file
lives under it); `mkdir(parents=True, exist_ok=True)` calls are no-ops in
this model. -/

/-- Filesystem state: association list from paths to contents (first binding
wins). -/
abbrev FS := List (String × String)

/-- Content of the file at `p`, if it exists. -/
def fsGet (fs : FS) (p : String) : Option String :=
  match fs with
  | [] => none
  | (q, c) :: rest => if q = p then some c else fsGet rest p

/-- Python `path.write_text(c)`: create or overwrite the file at `p`. -/
def fsSet (fs : FS) (p c : String) : FS :=
  (p, c) :: fs.filter (fun e => e.fst != p)

/-- Python `path.exists()` for a file path. -/
def fsExists (fs : FS) (p : String) : Bool :=
  (fsGet fs p).isSome

/-- Python `path.exists()` for a directory: some file lives under `d/`. -/
def dirExists (fs : FS) (d : String) : Bool :=
  fs.any (fun e => (d ++ "/").isPrefixOf e.fst)

/-- Basename of a path string (the component after the last slash),
modelling `pathlib.Path.name`. -/
def baseName (p : String) : String :=
  ⟨(p.data.reverse.takeWhile (fun c => c != '/')).reverse⟩

/-- Function `save_json`: serialize `obj` with a trailing newline and write
it at `path`.  The serializer `dump` stands for the external library call
`json.dumps(obj, indent=2, ensure_ascii=False)`. -/
def save_json (dump : JsonDict → String) (fs : FS) (path : String)
    (obj : JsonDict) : FS :=
  fsSet fs path (dump obj ++ "\n")

/-- Function `load_json`: if the file is absent, write the default object
and return it; otherwise parse the contents, failing (Python
`RuntimeError`) when the parse fails.  `parse` stands for the external
library call `json.loads`; it returns `none` where `json.loads` raises.
The result pairs the outcome with the filesystem after the call. -/
def load_json (parse : String → Option JsonDict) (dump : JsonDict → String)
    (fs : FS) (path : String) (defaultobj : JsonDict) :
    Except String JsonDict × FS :=
  match fsGet fs path with
  | none => (.ok defaultobj, save_json dump fs path defaultobj)
  | some c =>
    match parse c with
    | some doc => (.ok doc, fs)
    | none => (.error ("invalid json in " ++ path), fs)

/-- Source constant `PROMPTTEMPLATE`: default contents of `prompt.md`. -/
def PROMPTTEMPLATE : String :=
  "# prompt.md\n\nYou are an autonomous coding agent operating in a Ralph loop.\n\nRules:\n- Each iteration is a fresh run (no chat history).\n- Persist memory ONLY via repo files (prd.json, progress.txt, AGENTS.md) and git commits.\n- Pick ONE unfinished story (passes=false), implement it, run checks/tests, commit, update prd.json + progress.txt.\n- Only set passes=true when acceptanceCriteria are met.\n- After each iteration, write durable learnings (patterns/gotchas/conventions) into the nearest relevant AGENTS.md.\n- When ALL stories are passes=true, print EXACTLY: <promise>COMPLETE</promise>\n"

/-- Fresh progress-log header, with `now` standing for
`datetime.now().isoformat(timespec="seconds")`. -/
def progressHeader (now : String) : String :=
  "# Ralph Progress Log\nStarted: " ++ now ++ "\n---\n"

/-- Boilerplate written to a missing `AGENTS.md`. -/
def AGENTSBOILERPLATE : String :=
  "# AGENTS.md\n\nDurable learnings for coding agents and humans.\n\nAdd conventions, gotchas, and patterns discovered during Ralph iterations.\n"

/-- Function `ensure_files`: create each durable state file with its
template only when it is absent; existing files are untouched. -/
def ensure_files (dump : JsonDict → String) (now : String) (fs : FS)
    (promptfile prdfile progressfile agentsfile : String) : FS :=
  let fs1 := if fsExists fs promptfile then fs
    else fsSet fs promptfile PROMPTTEMPLATE
  let fs2 := if fsExists fs1 prdfile then fs1
    else save_json dump fs1 prdfile PRDTEMPLATE
  let fs3 := if fsExists fs2 progressfile then fs2
    else fsSet fs2 progressfile (progressHeader now)
  if fsExists fs3 agentsfile then fs3
  else fsSet fs3 agentsfile AGENTSBOILERPLATE

/-- Character replacement table of `safe_folder_name`: each of the nine
filesystem-hostile characters becomes an underscore. -/
def sanitizeChar (c : Char) : Char :=
  if c = '\\' || c = '/' || c = ':' || c = '*' || c = '?' || c = '"'
      || c = '<' || c = '>' || c = '|' then '_' else c

/-- Recursive core of `safe_folder_name` over the character list: a
`ralph/` prefix is stripped and the function recurses on the remainder
(matching the Python recursion on `name[len("ralph/"):]`); otherwise the
hostile characters are replaced and an empty result becomes `unknown`. -/
def safe_folder_name_go : List Char → String
  | 'r' :: 'a' :: 'l' :: 'p' :: 'h' :: '/' :: rest => safe_folder_name_go rest
  | cs =>
    let out : String := ⟨cs.map sanitizeChar⟩
    if out = "" then "unknown" else out

/-- Function `safe_folder_name`: make a string safe for folder names. -/
def safe_folder_name (name : String) : String :=
  safe_folder_name_go name.data

/-- Python `shutil.copy2(src, dst)` on the flat filesystem.  The sources it
is applied to below are known to exist, so the missing-source case
defaults to empty content. -/
def copy2 (fs : FS) (src dst : String) : FS :=
  fsSet fs dst ((fsGet fs src).getD "")

/-- Python `shutil.copytree(src, dst, dirs_exist_ok=True)` on the flat
filesystem: every file under `src/` is copied to the corresponding path
under `dst`. -/
def copytree (fs : FS) (src dst : String) : FS :=
  (fs.filterMap (fun e =>
      if (src ++ "/").isPrefixOf e.fst then
        some (dst ++ String.drop e.fst src.length, e.snd)
      else none)).foldl
    (fun acc e => fsSet acc e.fst e.snd) fs

/-- The operations of the `try` block of `maybe_archive`, in program order:
copy the prd file into the archive directory, copy the progress file if it
exists, copy the logs directory if it exists, then reset the progress log
to a fresh header. -/
def archiveOps (prdfile progressfile logs dest now : String) :
    List (FS → FS) :=
  [ fun fs => copy2 fs prdfile (dest ++ "/" ++ baseName prdfile),
    fun fs => if fsExists fs progressfile then
        copy2 fs progressfile (dest ++ "/" ++ baseName progressfile)
      else fs,
    fun fs => if dirExists fs logs then copytree fs logs (dest ++ "/logs")
      else fs,
    fun fs => fsSet fs progressfile (progressHeader now) ]

/-- Left-to-right application of a list of filesystem operations. -/
def applyOps (ops : List (FS → FS)) (fs : FS) : FS :=
  ops.foldl (fun a f => f a) fs

/-- Function `maybe_archive`: archive the previous ralph state when the
branch recorded in the last-branch marker differs from the ledger's
branch.  IO failure inside the `try` block is injected by `oplimit`:
`none` means every operation succeeds; `some k` means the first `k`
operations complete and then an exception is raised, which the `except`
handler turns into a warning.  The result pairs the filesystem with the
diagnostic messages printed to stderr; the only uncaught failure is a
malformed prd file, whose `load_json` error propagates (it is raised
before the `try` block). -/
def maybe_archive (parse : String → Option JsonDict)
    (dump : JsonDict → String) (now date : String) (oplimit : Option Nat)
    (state prdfile progressfile lastbranchfile : String) (fs : FS) :
    Except String (FS × List String) :=
  if !fsExists fs prdfile || !fsExists fs lastbranchfile then .ok (fs, [])
  else
    match load_json parse dump fs prdfile PRDTEMPLATE with
    | (.error e, _) => .error e
    | (.ok prd, fs0) =>
      let current := prd_branch prd
      let last := pyStrip ((fsGet fs0 lastbranchfile).getD "")
      if current = "" || last = "" || current = last then .ok (fs0, [])
      else
        let logs := state ++ "/logs"
        let dest := state ++ "/archive/" ++ date ++ "-"
          ++ safe_folder_name last
        let ops := archiveOps prdfile progressfile logs dest now
        match oplimit with
        | none =>
          .ok (applyOps ops fs0,
            ["info: archived previous ralph state to " ++ dest])
        | some k =>
          .ok (applyOps (ops.take k) fs0,
            ["warn: failed to archive old state"])

/-- Containment helper: does `needle` occur as a prefix of some suffix of
the second list? -/
def listContainsGo (needle : List Char) : List Char → Bool
  | [] => needle.isPrefixOf []
  | c :: cs => needle.isPrefixOf (c :: cs) || listContainsGo needle cs

/-- Python `needle in hay` on strings. -/
def strContains (hay needle : String) : Bool :=
  listContainsGo needle.data hay.data

/-- Fuel-driven scanner for `pyReplace`: replace leftmost non-overlapping
occurrences of `pat` by `rep`, scanning left to right.  The fuel starts at
the list length; each step consumes at least one character when `pat` is
non-empty, so the fuel never runs out on the inputs `pyReplace` passes. -/
def pyReplaceGo (pat rep : List Char) : Nat → List Char → List Char
  | 0, cs => cs
  | fuel + 1, cs =>
    match cs with
    | [] => []
    | c :: rest =>
      if pat.isPrefixOf cs then
        rep ++ pyReplaceGo pat rep fuel (cs.drop pat.length)
      else c :: pyReplaceGo pat rep fuel rest

/-- Python `s.replace(pat, rep)` for a non-empty pattern (the source only
replaces the literal `{PROMPT}`); an empty pattern returns `s`
unchanged. -/
def pyReplace (s pat rep : String) : String :=
  match pat.data with
  | [] => s
  | _ :: _ => ⟨pyReplaceGo pat.data rep.data s.data.length s.data⟩

/-- Python truthiness of an `Optional[str]` (both `None` and `""` are
falsy). -/
def optStrTruthy : Option String → Bool
  | none => false
  | some s => s != ""

/-- Python truthiness of an `Optional[list]` (both `None` and `[]` are
falsy). -/
def optListTruthy : Option (List String) → Bool
  | none => false
  | some l => !l.isEmpty

/-- The fields of the `Behaviour` named tuple that `runner_command`
consumes.  The runner kind stays a string, as in the source, which
dispatches on string equality. -/
structure Behaviour where
  runner : String
  runnerargs : List String
  ampbin : String
  ampallowall : Bool
  opencodebin : String
  opencodeformat : String
  opencodemodel : Option String
  opencodeagent : Option String
  opencodeattach : Option String
  customcmd : Option (List String)

/-- Function `runner_command`: build the runner argv.  The four optional
file arguments are the iteration prompt, prd, progress, and AGENTS paths,
in that order.  `ValueError` becomes `Except.error`. -/
def runner_command (behaviour : Behaviour) (bootstrapprompt : String)
    (iterpromptfile prdfile progressfile agentsfile : Option String) :
    Except String (List String) :=
  if behaviour.runner = "amp" then
    .ok (([behaviour.ampbin]
      ++ (if behaviour.ampallowall then ["--dangerously-allow-all"] else [])
      ++ ["-x", bootstrapprompt]) ++ behaviour.runnerargs)
  else if behaviour.runner = "opencode" then
    let cmd0 := [behaviour.opencodebin, "run", "--format",
      behaviour.opencodeformat]
    let cmd1 := cmd0 ++ (if optStrTruthy behaviour.opencodeattach then
      ["--attach", behaviour.opencodeattach.getD ""] else [])
    let cmd2 := cmd1 ++ (if optStrTruthy behaviour.opencodemodel then
      ["--model", behaviour.opencodemodel.getD ""] else [])
    let cmd3 := cmd2 ++ (if optStrTruthy behaviour.opencodeagent then
      ["--agent", behaviour.opencodeagent.getD ""] else [])
    let files := [iterpromptfile, prdfile, progressfile,
      agentsfile].filterMap id
    let cmd4 := cmd3 ++ (if !files.isEmpty then "--file" :: files else [])
    .ok ((cmd4 ++ ["--", bootstrapprompt]) ++ behaviour.runnerargs)
  else if behaviour.runner = "custom" then
    if !optListTruthy behaviour.customcmd then
      .error "custom runner requires --custom-cmd"
    else
      let toks := behaviour.customcmd.getD []
      let cmd := toks.map (fun t =>
        if strContains t "{PROMPT}" then
          pyReplace t "{PROMPT}" bootstrapprompt
        else t)
      let used := toks.any (fun t => strContains t "{PROMPT}")
      .ok ((if used then cmd else cmd ++ [bootstrapprompt])
        ++ behaviour.runnerargs)
  else .error ("unknown runner: " ++ behaviour.runner)

/-! Completion sentinel.  The source compiles `behaviour.sentinel` with
`re.IGNORECASE` and calls `.search(combined)`.  The default pattern is
`DEFAULTSENTINEL = r"<promise>\s*COMPLETE\s*</promise>"`.  The matcher
below embeds exactly that pattern's search semantics: literals compared
case-insensitively, `\s` as (ASCII) whitespace, a match allowed at any
start position.  Greedy `\s*` needs no backtracking here because the
character after each `\s*` is never itself whitespace. -/

/-- Case-insensitive literal match of `pat` against a prefix of `cs`,
returning the remainder on success. -/
def matchCI : List Char → List Char → Option (List Char)
  | [], cs => some cs
  | _ :: _, [] => none
  | p :: ps, c :: cs =>
    if p.toLower = c.toLower then matchCI ps cs else none

/-- Greedy `\s*`: drop leading whitespace. -/
def skipWs (cs : List Char) : List Char :=
  cs.dropWhile isPyWs

/-- Match of the default sentinel pattern anchored at the start of `cs`. -/
def sentinelMatchAt (cs : List Char) : Bool :=
  match matchCI "<promise>".data cs with
  | none => false
  | some r1 =>
    match matchCI "COMPLETE".data (skipWs r1) with
    | none => false
    | some r2 => (matchCI "</promise>".data (skipWs r2)).isSome

/-- Search helper: try the anchored match at every start position. -/
def sentinelSearchGo : List Char → Bool
  | [] => sentinelMatchAt []
  | c :: cs => sentinelMatchAt (c :: cs) || sentinelSearchGo cs

/-- Embedding of `re.compile(DEFAULTSENTINEL, re.IGNORECASE).search(s)`,
as a Boolean (the loop only tests whether a match exists). -/
def sentinel_search (s : String) : Bool :=
  sentinelSearchGo s.data

/-! Process supervisor `run_tee`.  The polling loop is driven by a trace of
observations, one per loop head: each carries the elapsed wall-clock time
`monotonic() - start` at that head (a rational, in seconds) and what the
head observes (a line from the merged stdout+stderr stream, no line while
the process still runs, or no line with the process exited). -/

/-- What one head of the polling loop observes. -/
inductive PollObs where
  | line (s : String)
  | idle
  | exited (rc : Int)

/-- Result of `run_tee`: exit code, combined output, log-file contents, and
whether the timeout branch fired. -/
structure TeeResult where
  rc : Int
  combined : String
  log : String
  timedOut : Bool
deriving DecidableEq, Repr

/-- The marker line written to the log file when the timeout fires. -/
def timeoutMarker (t : Nat) : String :=
  "\n[wrapper] timeout after " ++ toString t ++ "s; terminating process\n"

/-- Polling loop of `run_tee`.  `termRc` is the `returncode` the terminated
process reports after `terminate`/`kill` and the final `wait` (determined
by the external process, e.g. a negative signal code on POSIX).  Returns
`none` when the trace is too short to reach either exit of the loop. -/
def run_tee_go (timeout : Option Nat) (termRc : Int) :
    List (ℚ × PollObs) → List String → List String → Option TeeResult
  | [], _, _ => none
  | (el, o) :: rest, log, comb =>
    if timeout.isSome ∧ el > (timeout.getD 0 : Nat) then
      some ⟨termRc, String.join comb,
        String.join (log ++ [timeoutMarker (timeout.getD 0)]), true⟩
    else
      match o with
      | .line s => run_tee_go timeout termRc rest (log ++ [s]) (comb ++ [s])
      | .idle => run_tee_go timeout termRc rest log comb
      | .exited rc => some ⟨rc, String.join comb, String.join log, false⟩

/-- Function `run_tee` on an observation trace: start with an empty log
file and an empty combined buffer. -/
def run_tee (timeout : Option Nat) (termRc : Int)
    (trace : List (ℚ × PollObs)) : Option TeeResult :=
  run_tee_go timeout termRc trace [] []

/-! Loop controller: the `for i in range(1, maxiters + 1)` loop of `entry`
(source lines 1140-1212).  Each cycle's environment-determined data — the
prd document as reloaded at the top of the cycle, the outcome of
`run_tee`, and the prd document as reloaded after the run — is supplied as
one `IterInput`; the external agent process rewrites these files between
supervisor reads, so their contents are inputs to the loop, not state it
owns.  A `none` document stands for a malformed file (where `load_json`
raises and `entry` aborts); a `none` run outcome stands for `run_tee`
itself raising (e.g. process launch failure), which the loop catches,
warns about, and sleeps past. -/

/-- Environment data consumed by one loop cycle. -/
structure IterInput where
  prdAtStart : Option JsonDict
  runResult : Option (Int × String)
  prdAfterRun : Option JsonDict

/-- The iteration loop of `entry`.  `sent` is the compiled sentinel's
search; `dryrun` is `behaviour.dryrun`.  The list length plays the role of
`maxiters`.  Returns the process exit code paired with the number of
cycles that attempted a subprocess invocation; a malformed ledger read
propagates as an error, matching the uncaught `RuntimeError`. -/
def loop_iters (sent : String → Bool) (dryrun : Bool) :
    List IterInput → Except String (Int × Nat)
  | [] => .ok (1, 0)
  | inp :: rest =>
    match inp.prdAtStart with
    | none => .error "invalid json"
    | some prd =>
      if prd_done prd then .ok (0, 0)
      else if dryrun then .ok (0, 0)
      else
        match inp.runResult with
        | none =>
          (loop_iters sent dryrun rest).map (fun r => (r.1, r.2 + 1))
        | some (_rc, combined) =>
          if sent combined then .ok (0, 1)
          else
            match inp.prdAfterRun with
            | none => .error "invalid json"
            | some prd2 =>
              if prd_done prd2 then .ok (0, 1)
              else
                (loop_iters sent dryrun rest).map (fun r => (r.1, r.2 + 1))

/-- Slice of `entry` from the main prd load (source line 1108) through the
iteration loop, for a run that is past init/check handling: load the prd
(a malformed file aborts), run the branch-change archival, record the
branch marker, then run the loop.  The filesystem results of archival and
marker recording do not feed back into the loop, whose per-cycle file
reads arrive via `inputs`. -/
def entry_main (parse : String → Option JsonDict)
    (dump : JsonDict → String) (now date : String) (oplimit : Option Nat)
    (state prdfile progressfile lastbranchfile : String) (fs : FS)
    (sent : String → Bool) (dryrun : Bool) (inputs : List IterInput) :
    Except String (Int × Nat) :=
  match load_json parse dump fs prdfile PRDTEMPLATE with
  | (.error e, _) => .error e
  | (.ok prd, fs0) =>
    match maybe_archive parse dump now date oplimit state prdfile
        progressfile lastbranchfile fs0 with
    | .error e => .error e
    | .ok (fs1, _warns) =>
      let branch := prd_branch prd
      let _fs2 := if branch != "" then fsSet fs1 lastbranchfile (branch ++ "\n")
        else fs1
      loop_iters sent dryrun inputs

/-- Relation on loop inputs: identical except possibly in the subprocess
exit codes (the combined outputs and the ledger documents agree). -/
def sameExceptRc (a b : IterInput) : Prop :=
  a.prdAtStart = b.prdAtStart ∧ a.prdAfterRun = b.prdAfterRun ∧
    Option.map Prod.snd a.runResult = Option.map Prod.snd b.runResult

/-- Lines captured by the polling loop from an observation trace. -/
def obsLines (trace : List (ℚ × PollObs)) : List String :=
  trace.filterMap (fun p =>
    match p.2 with
    | .line s => some s
    | _ => none)

/-! Helper lemmas. -/

theorem fsGet_filter_ne (fs : FS) (p q : String) (h : q ≠ p) :
    fsGet (fs.filter (fun e => e.fst != p)) q = fsGet fs q := by
  induction fs with
  | nil => rfl
  | cons a rest ih =>
    by_cases ha : a.fst = p
    · have hpq : ¬ p = q := fun hq => h hq.symm
      simp only [List.filter_cons, ha, bne_self_eq_false, Bool.false_eq_true,
        if_false, fsGet, hpq, ite_false]
      exact ih
    · simp only [List.filter_cons, bne_iff_ne, ne_eq, ha, not_false_iff,
        if_pos, fsGet]
      by_cases haq : a.fst = q
      · simp [haq]
      · simp only [haq, if_false]
        exact ih

theorem fsGet_fsSet (fs : FS) (p c q : String) :
    fsGet (fsSet fs p c) q = if p = q then some c else fsGet fs q := by
  unfold fsSet
  simp only [fsGet]
  by_cases h : p = q
  · simp [h]
  · rw [if_neg h, if_neg h, fsGet_filter_ne fs p q (fun hq => h hq.symm)]

theorem fsExists_fsSet_of_exists (fs : FS) (p c q : String)
    (h : fsExists fs q = true) : fsExists (fsSet fs p c) q = true := by
  unfold fsExists at *
  rw [fsGet_fsSet]
  by_cases hpq : p = q
  · simp [hpq]
  · simpa [hpq] using h

theorem ensure_step_preserves (fs : FS) (p t q c : String)
    (h : fsGet fs q = some c) :
    fsGet (if fsExists fs p then fs else fsSet fs p t) q = some c := by
  by_cases he : fsExists fs p = true
  · rw [if_pos he]
    exact h
  · rw [if_neg he, fsGet_fsSet]
    have hne : ¬ p = q := by
      intro hq
      subst hq
      unfold fsExists at he
      rw [h] at he
      simp at he
    rw [if_neg hne]
    exact h

theorem ensure_step_get_other (fs : FS) (p t q : String) (h : ¬ p = q) :
    fsGet (if fsExists fs p then fs else fsSet fs p t) q = fsGet fs q := by
  by_cases he : fsExists fs p = true
  · rw [if_pos he]
  · rw [if_neg he, fsGet_fsSet, if_neg h]

theorem ensure_step_exists_after (fs : FS) (p t : String) :
    fsExists (if fsExists fs p then fs else fsSet fs p t) p = true := by
  by_cases he : fsExists fs p = true
  · rw [if_pos he]
    exact he
  · rw [if_neg he]
    unfold fsExists
    rw [fsGet_fsSet, if_pos rfl]
    rfl

theorem ensure_step_exists_mono (fs : FS) (p t q : String)
    (h : fsExists fs q = true) :
    fsExists (if fsExists fs p then fs else fsSet fs p t) q = true := by
  by_cases he : fsExists fs p = true
  · rw [if_pos he]
    exact h
  · rw [if_neg he]
    exact fsExists_fsSet_of_exists _ _ _ _ h

/-- C3: loading a missing path writes the serialized template and returns a
document equal to the template; loading an unparseable existing file
raises the malformed-data error and leaves the filesystem untouched;
loading a parseable file returns the parsed document. -/
theorem load_json_spec (parse : String → Option JsonDict)
    (dump : JsonDict → String) (fs : FS) (path : String)
    (defaultobj : JsonDict) :
    (fsGet fs path = none →
      load_json parse dump fs path defaultobj
        = (.ok defaultobj, save_json dump fs path defaultobj)
      ∧ fsGet (save_json dump fs path defaultobj) path
          = some (dump defaultobj ++ "\n"))
    ∧ (∀ c, fsGet fs path = some c → parse c = none →
      load_json parse dump fs path defaultobj
        = (.error ("invalid json in " ++ path), fs))
    ∧ (∀ c doc, fsGet fs path = some c → parse c = some doc →
      load_json parse dump fs path defaultobj = (.ok doc, fs)) := by
  refine ⟨?_, ?_, ?_⟩
  · intro h
    refine ⟨?_, ?_⟩
    · simp only [load_json, h]
    · unfold save_json
      rw [fsGet_fsSet, if_pos rfl]
  · intro c hc hp
    simp only [load_json, hc, hp]
  · intro c doc hc hp
    simp only [load_json, hc, hp]

/-- Witness for C3: a malformed existing file errors and is preserved; a
missing file is created from the template and the template is returned. -/
theorem load_json_spec_witness :
    load_json (fun _ => none) (fun _ => "tmpl") [("p", "bad")] "p" []
        = (.error ("invalid json in p"), [("p", "bad")])
    ∧ load_json (fun _ => none) (fun _ => "tmpl") [] "q" []
        = (.ok [], save_json (fun _ => "tmpl") [] "q" []) :=
  ⟨(load_json_spec (fun _ => none) (fun _ => "tmpl") [("p", "bad")] "p"
      []).2.1 "bad" rfl rfl,
   ((load_json_spec (fun _ => none) (fun _ => "tmpl") [] "q" []).1 rfl).1⟩

/-- C9: `ensure_files` preserves the contents of every pre-existing file,
creates each of the four durable files with its fixed template only when
absent, and a second call right after a first changes nothing. -/
theorem ensure_files_spec (dump : JsonDict → String) (now now2 : String)
    (fs : FS) (p1 p2 p3 p4 : String)
    (h12 : ¬ p1 = p2) (h13 : ¬ p1 = p3) (h14 : ¬ p1 = p4)
    (h23 : ¬ p2 = p3) (h24 : ¬ p2 = p4) (h34 : ¬ p3 = p4) :
    (∀ q c, fsGet fs q = some c →
      fsGet (ensure_files dump now fs p1 p2 p3 p4) q = some c)
    ∧ (fsGet fs p1 = none →
      fsGet (ensure_files dump now fs p1 p2 p3 p4) p1 = some PROMPTTEMPLATE)
    ∧ (fsGet fs p2 = none →
      fsGet (ensure_files dump now fs p1 p2 p3 p4) p2
        = some (dump PRDTEMPLATE ++ "\n"))
    ∧ (fsGet fs p3 = none →
      fsGet (ensure_files dump now fs p1 p2 p3 p4) p3
        = some (progressHeader now))
    ∧ (fsGet fs p4 = none →
      fsGet (ensure_files dump now fs p1 p2 p3 p4) p4
        = some AGENTSBOILERPLATE)
    ∧ ensure_files dump now2 (ensure_files dump now fs p1 p2 p3 p4)
        p1 p2 p3 p4
      = ensure_files dump now fs p1 p2 p3 p4 := by
  have habs : ∀ (g : FS) (p : String), fsGet g p = none →
      ¬ fsExists g p = true := by
    intro g p h
    unfold fsExists
    rw [h]
    simp
  refine ⟨?_, ?_, ?_, ?_, ?_, ?_⟩
  · intro q c h
    simp only [ensure_files, save_json]
    exact ensure_step_preserves _ _ _ _ _ (ensure_step_preserves _ _ _ _ _
      (ensure_step_preserves _ _ _ _ _ (ensure_step_preserves _ _ _ _ _ h)))
  · intro h
    simp only [ensure_files, save_json]
    rw [ensure_step_get_other _ p4 _ p1 (fun hq => h14 hq.symm),
      ensure_step_get_other _ p3 _ p1 (fun hq => h13 hq.symm),
      ensure_step_get_other _ p2 _ p1 (fun hq => h12 hq.symm),
      if_neg (habs fs p1 h), fsGet_fsSet, if_pos rfl]
  · intro h
    simp only [ensure_files, save_json]
    rw [ensure_step_get_other _ p4 _ p2 (fun hq => h24 hq.symm),
      ensure_step_get_other _ p3 _ p2 (fun hq => h23 hq.symm)]
    have h1 : fsGet (if fsExists fs p1 then fs
        else fsSet fs p1 PROMPTTEMPLATE) p2 = none := by
      rw [ensure_step_get_other _ p1 _ p2 h12]
      exact h
    rw [if_neg (habs _ p2 h1), fsGet_fsSet, if_pos rfl]
  · intro h
    simp only [ensure_files, save_json]
    rw [ensure_step_get_other _ p4 _ p3 (fun hq => h34 hq.symm)]
    have h1 : fsGet (if fsExists fs p1 then fs
        else fsSet fs p1 PROMPTTEMPLATE) p3 = none := by
      rw [ensure_step_get_other _ p1 _ p3 h13]
      exact h
    have h2 : fsGet (if fsExists (if fsExists fs p1 then fs
          else fsSet fs p1 PROMPTTEMPLATE) p2 then
          (if fsExists fs p1 then fs else fsSet fs p1 PROMPTTEMPLATE)
        else fsSet (if fsExists fs p1 then fs
          else fsSet fs p1 PROMPTTEMPLATE) p2 (dump PRDTEMPLATE ++ "\n"))
        p3 = none := by
      rw [ensure_step_get_other _ p2 _ p3 h23]
      exact h1
    rw [if_neg (habs _ p3 h2), fsGet_fsSet, if_pos rfl]
  · intro h
    simp only [ensure_files, save_json]
    have h1 : fsGet (if fsExists fs p1 then fs
        else fsSet fs p1 PROMPTTEMPLATE) p4 = none := by
      rw [ensure_step_get_other _ p1 _ p4 h14]
      exact h
    have h2 : fsGet (if fsExists (if fsExists fs p1 then fs
          else fsSet fs p1 PROMPTTEMPLATE) p2 then
          (if fsExists fs p1 then fs else fsSet fs p1 PROMPTTEMPLATE)
        else fsSet (if fsExists fs p1 then fs
          else fsSet fs p1 PROMPTTEMPLATE) p2 (dump PRDTEMPLATE ++ "\n"))
        p4 = none := by
      rw [ensure_step_get_other _ p2 _ p4 h24]
      exact h1
    have h3 := h2
    rw [← ensure_step_get_other _ p3 (progressHeader now) p4 h34] at h3
    rw [if_neg (habs _ p4 h3), fsGet_fsSet, if_pos rfl]
  · have key : ∀ g : FS, fsExists g p1 = true → fsExists g p2 = true →
        fsExists g p3 = true → fsExists g p4 = true →
        ensure_files dump now2 g p1 p2 p3 p4 = g := by
      intro g e1 e2 e3 e4
      simp only [ensure_files, save_json]
      rw [if_pos e1, if_pos e2, if_pos e3, if_pos e4]
    have e1 : fsExists (ensure_files dump now fs p1 p2 p3 p4) p1 = true := by
      simp only [ensure_files, save_json]
      exact ensure_step_exists_mono _ _ _ _ (ensure_step_exists_mono _ _ _ _
        (ensure_step_exists_mono _ _ _ _ (ensure_step_exists_after _ _ _)))
    have e2 : fsExists (ensure_files dump now fs p1 p2 p3 p4) p2 = true := by
      simp only [ensure_files, save_json]
      exact ensure_step_exists_mono _ _ _ _ (ensure_step_exists_mono _ _ _ _
        (ensure_step_exists_after _ _ _))
    have e3 : fsExists (ensure_files dump now fs p1 p2 p3 p4) p3 = true := by
      simp only [ensure_files, save_json]
      exact ensure_step_exists_mono _ _ _ _ (ensure_step_exists_after _ _ _)
    have e4 : fsExists (ensure_files dump now fs p1 p2 p3 p4) p4 = true := by
      simp only [ensure_files, save_json]
      exact ensure_step_exists_after _ _ _
    exact key _ e1 e2 e3 e4

/-- Witness for C9: with an existing `prompt.md`, its contents survive, and
an immediate second `ensure_files` call is a no-op. -/
theorem ensure_files_spec_witness :
    fsGet (ensure_files (fun _ => "J") "T" [("prompt.md", "mine")]
        "prompt.md" "prd.json" "progress.txt" "AGENTS.md") "prompt.md"
      = some "mine"
    ∧ ensure_files (fun _ => "J") "T2"
        (ensure_files (fun _ => "J") "T" [("prompt.md", "mine")]
          "prompt.md" "prd.json" "progress.txt" "AGENTS.md")
        "prompt.md" "prd.json" "progress.txt" "AGENTS.md"
      = ensure_files (fun _ => "J") "T" [("prompt.md", "mine")]
          "prompt.md" "prd.json" "progress.txt" "AGENTS.md" :=
  ⟨(ensure_files_spec (fun _ => "J") "T" "T2" [("prompt.md", "mine")]
      "prompt.md" "prd.json" "progress.txt" "AGENTS.md"
      (by decide) (by decide) (by decide) (by decide) (by decide)
      (by decide)).1 "prompt.md" "mine" rfl,
   (ensure_files_spec (fun _ => "J") "T" "T2" [("prompt.md", "mine")]
      "prompt.md" "prd.json" "progress.txt" "AGENTS.md"
      (by decide) (by decide) (by decide) (by decide) (by decide)
      (by decide)).2.2.2.2.2⟩

/-- C2: for every ledger document (story entries being objects whose
`passes` field, when present, is a JSON boolean, per the ledger schema),
`prd_done` returns true iff the story sequence is non-empty and every
story's `passes` field is the boolean true; an empty story sequence is
never done. -/
theorem prd_done_iff_all_passes (prd : JsonDict)
    (h : ∀ s ∈ prd_stories prd,
      pyGet s "passes" = none ∨ ∃ b, pyGet s "passes" = some (Json.bool b)) :
    prd_done prd = true ↔
      (prd_stories prd ≠ [] ∧
        ∀ s ∈ prd_stories prd, pyGet s "passes" = some (Json.bool true)) := by
  unfold prd_done
  rw [Bool.and_eq_true, List.all_eq_true]
  constructor
  · rintro ⟨h1, h2⟩
    refine ⟨?_, ?_⟩
    · intro hnil
      rw [hnil] at h1
      simp at h1
    · intro s hs
      have hts := h2 s hs
      rcases h s hs with hn | ⟨b, hb⟩
      · rw [hn] at hts
        simp [optTruthy] at hts
      · rw [hb] at hts
        cases b with
        | true => exact hb
        | false => simp [optTruthy, pyTruthy] at hts
  · rintro ⟨hne, hall⟩
    refine ⟨?_, fun s hs => ?_⟩
    · cases hl : prd_stories prd with
      | nil => exact absurd hl hne
      | cons a l => simp
    · rw [hall s hs]
      rfl

/-- Witness for C2: a one-story ledger with `passes = true` is done. -/
theorem prd_done_iff_all_passes_witness :
    prd_done [("userStories", Json.arr [Json.obj [("passes", Json.bool true)]])]
      = true := by
  have hstories :
      prd_stories
        [("userStories", Json.arr [Json.obj [("passes", Json.bool true)]])]
      = [Json.obj [("passes", Json.bool true)]] := rfl
  refine (prd_done_iff_all_passes _ ?_).mpr ⟨?_, ?_⟩
  · intro s hs
    rw [hstories] at hs
    rw [List.mem_singleton.mp hs]
    exact Or.inr ⟨true, rfl⟩
  · rw [hstories]
    simp
  · intro s hs
    rw [hstories] at hs
    rw [List.mem_singleton.mp hs]
    rfl

/-- C10: the story accessor prefers the `userStories` key when its value is
a list (even when `stories` also holds a list), falls back to `stories`
when its value is a list, and otherwise returns the empty list, in which
case progress is `(0, 0)` and the ledger is not done; a key whose value is
not a list is treated as absent. -/
theorem prd_stories_key_selection (prd : JsonDict) :
    (∀ l, dictGet prd "userStories" = some (Json.arr l) → prd_stories prd = l)
    ∧ ((∀ l, ¬ dictGet prd "userStories" = some (Json.arr l)) →
        ∀ l, dictGet prd "stories" = some (Json.arr l) → prd_stories prd = l)
    ∧ ((∀ l, ¬ dictGet prd "userStories" = some (Json.arr l)) →
        (∀ l, ¬ dictGet prd "stories" = some (Json.arr l)) →
        prd_stories prd = [] ∧ prd_progress prd = (0, 0)
          ∧ prd_done prd = false) := by
  have hcase : ∀ v : Option Json, (∀ l, ¬ v = some (Json.arr l)) →
      (match v with
        | some (.arr l) => l
        | _ =>
          match dictGet prd "stories" with
          | some (.arr l) => l
          | _ => []) =
      (match dictGet prd "stories" with
        | some (.arr l) => l
        | _ => []) := by
    intro v hv
    match v with
    | none => rfl
    | some .null => rfl
    | some (.bool b) => rfl
    | some (.num n) => rfl
    | some (.str s) => rfl
    | some (.arr l) => exact absurd rfl (hv l)
    | some (.obj d) => rfl
  have hcase2 : ∀ v : Option Json, (∀ l, ¬ v = some (Json.arr l)) →
      (match v with
        | some (.arr l) => l
        | _ => ([] : List Json)) = [] := by
    intro v hv
    match v with
    | none => rfl
    | some .null => rfl
    | some (.bool b) => rfl
    | some (.num n) => rfl
    | some (.str s) => rfl
    | some (.arr l) => exact absurd rfl (hv l)
    | some (.obj d) => rfl
  refine ⟨?_, ?_, ?_⟩
  · intro l hl
    unfold prd_stories
    rw [hl]
  · intro hno l hl
    unfold prd_stories
    rw [hcase _ hno, hl]
  · intro hno hno2
    have hstories : prd_stories prd = [] := by
      unfold prd_stories
      rw [hcase _ hno, hcase2 _ hno2]
    exact ⟨hstories, by simp [prd_progress, hstories],
      by simp [prd_done, hstories]⟩

/-- Witness for C10: when both keys hold lists, `userStories` wins. -/
theorem prd_stories_key_selection_witness :
    prd_stories
      [("userStories", Json.arr [Json.str "a"]),
       ("stories", Json.arr [Json.str "b"])] = [Json.str "a"] :=
  (prd_stories_key_selection _).1 _ rfl

/-- C7: when the ledger reloaded at the top of the first cycle is already
fully passing, the loop stops on that cycle with exit code 0 and zero
subprocess invocations. -/
theorem loop_stops_when_done_at_start (sent : String → Bool) (dryrun : Bool)
    (prd : JsonDict) (inp : IterInput) (rest : List IterInput)
    (hprd : inp.prdAtStart = some prd) (hdone : prd_done prd = true) :
    loop_iters sent dryrun (inp :: rest) = .ok (0, 0) := by
  unfold loop_iters
  rw [hprd]
  simp [hdone]

/-- Witness for C7: a fully passing one-story ledger stops the loop at
once with a success exit and no invocation. -/
theorem loop_stops_when_done_at_start_witness :
    loop_iters sentinel_search false
      ({ prdAtStart :=
          some [("userStories", Json.arr [Json.obj [("passes", Json.bool true)]])],
         runResult := none, prdAfterRun := none } :: []) = .ok (0, 0) :=
  loop_stops_when_done_at_start _ _ _ _ _ rfl rfl

/-- C5: for the opencode runner with no attach, model, or agent option and
no passthrough arguments, the argv is the fixed head followed by the
file-attachment flag, the supplied auxiliary file paths in the fixed order
(iteration prompt, prd, progress, AGENTS), the `--` separator, and the
bootstrap instruction — so it ends in exactly that order, with the
separator present whenever files are attached. -/
theorem runner_command_opencode_tail (behaviour : Behaviour)
    (bootstrap : String) (ip pf pg ag : Option String)
    (hrun : behaviour.runner = "opencode")
    (hatt : optStrTruthy behaviour.opencodeattach = false)
    (hmod : optStrTruthy behaviour.opencodemodel = false)
    (hagent : optStrTruthy behaviour.opencodeagent = false)
    (hargs : behaviour.runnerargs = [])
    (hne : ¬ ([ip, pf, pg, ag].filterMap id) = []) :
    runner_command behaviour bootstrap ip pf pg ag
      = .ok ([behaviour.opencodebin, "run", "--format",
          behaviour.opencodeformat]
        ++ ("--file" :: ([ip, pf, pg, ag].filterMap id))
        ++ ["--", bootstrap]) := by
  unfold runner_command
  rw [hrun, if_neg (by decide), if_pos rfl]
  have hfe : ([ip, pf, pg, ag].filterMap id).isEmpty = false := by
    cases hfl : [ip, pf, pg, ag].filterMap id with
    | nil => exact absurd hfl hne
    | cons a l => rfl
  simp [hatt, hmod, hagent, hargs, hfe]

/-- Witness for C5: all four auxiliary files supplied, no options. -/
theorem runner_command_opencode_tail_witness :
    runner_command
        { runner := "opencode", runnerargs := [], ampbin := "amp",
          ampallowall := false, opencodebin := "opencode",
          opencodeformat := "default", opencodemodel := none,
          opencodeagent := none, opencodeattach := none, customcmd := none }
        "boot" (some "ip") (some "prd") (some "pg") (some "ag")
      = .ok ["opencode", "run", "--format", "default", "--file", "ip",
          "prd", "pg", "ag", "--", "boot"] :=
  runner_command_opencode_tail
    { runner := "opencode", runnerargs := [], ampbin := "amp",
      ampallowall := false, opencodebin := "opencode",
      opencodeformat := "default", opencodemodel := none,
      opencodeagent := none, opencodeattach := none, customcmd := none }
    "boot" (some "ip") (some "prd") (some "pg") (some "ag")
    rfl rfl rfl rfl rfl (by decide)

theorem map_subst_of_no_placeholder (bootstrap : String)
    (toks : List String)
    (hall : ∀ t ∈ toks, strContains t "{PROMPT}" = false) :
    toks.map (fun t => if strContains t "{PROMPT}" then
      pyReplace t "{PROMPT}" bootstrap else t) = toks := by
  induction toks with
  | nil => rfl
  | cons a l ih =>
    simp only [List.map_cons]
    rw [hall a (List.mem_cons_self a l),
      ih (fun t ht => hall t (List.mem_cons_of_mem a ht))]
    simp

/-- C6: for the custom runner with no passthrough arguments: the concrete
token list `["run", "--msg", "{PROMPT}"]` with bootstrap `"hello"` yields
`["run", "--msg", "hello"]`; when no token contains the placeholder the
original tokens are returned with the bootstrap appended; and every token
containing the placeholder (hence in particular the first such token) has
the placeholder substituted with the bootstrap at its position. -/
theorem runner_command_custom_spec (behaviour : Behaviour)
    (bootstrap : String)
    (hrun : behaviour.runner = "custom")
    (hargs : behaviour.runnerargs = []) :
    (behaviour.customcmd = some ["run", "--msg", "{PROMPT}"] →
      bootstrap = "hello" →
      runner_command behaviour bootstrap none none none none
        = .ok ["run", "--msg", "hello"])
    ∧ (∀ toks, behaviour.customcmd = some toks → ¬ toks = [] →
      (∀ t ∈ toks, strContains t "{PROMPT}" = false) →
      runner_command behaviour bootstrap none none none none
        = .ok (toks ++ [bootstrap]))
    ∧ (∀ toks i (hi : i < toks.length), behaviour.customcmd = some toks →
      strContains (toks.get ⟨i, hi⟩) "{PROMPT}" = true →
      ∃ out, runner_command behaviour bootstrap none none none none
          = .ok out
        ∧ out.length = toks.length
        ∧ out[i]? = some (pyReplace (toks.get ⟨i, hi⟩) "{PROMPT}"
            bootstrap)) := by
  refine ⟨?_, ?_, ?_⟩
  · intro hc hb
    subst hb
    unfold runner_command
    rw [hrun, hc, hargs, if_neg (by decide), if_neg (by decide),
      if_pos rfl]
    rfl
  · intro toks hc hne hall
    unfold runner_command
    rw [hrun, hc, hargs, if_neg (by decide), if_neg (by decide),
      if_pos rfl]
    have hlt : optListTruthy (some toks) = true := by
      unfold optListTruthy
      cases htk : toks with
      | nil => exact absurd htk hne
      | cons a l => rfl
    dsimp only
    rw [if_neg (show ¬ ((!optListTruthy (some toks)) = true) by
      simp [hlt])]
    simp only [Option.getD_some]
    have hany : (toks.any fun t => strContains t "{PROMPT}") = false := by
      rw [List.any_eq_false]
      intro t ht
      simp [hall t ht]
    rw [if_neg (by simp [hany]), map_subst_of_no_placeholder bootstrap toks
      hall, List.append_nil]
  · intro toks i hi hc hcont
    unfold runner_command
    rw [hrun, hc, hargs, if_neg (by decide), if_neg (by decide),
      if_pos rfl]
    have hlt : optListTruthy (some toks) = true := by
      unfold optListTruthy
      cases htk : toks with
      | nil =>
        subst htk
        exact absurd hi (by simp)
      | cons a l => rfl
    dsimp only
    rw [if_neg (show ¬ ((!optListTruthy (some toks)) = true) by
      simp [hlt])]
    simp only [Option.getD_some]
    have hany : (toks.any fun t => strContains t "{PROMPT}") = true :=
      List.any_eq_true.mpr ⟨toks.get ⟨i, hi⟩, List.get_mem toks i hi,
        hcont⟩
    rw [if_pos hany, List.append_nil]
    refine ⟨_, rfl, by rw [List.length_map], ?_⟩
    rw [List.getElem?_map, List.getElem?_eq_getElem hi]
    simp only [Option.map_some']
    rw [show toks[i] = toks.get ⟨i, hi⟩ from rfl, hcont]
    rfl

/-- Witness for C6: the concrete placeholder substitution. -/
theorem runner_command_custom_spec_witness :
    runner_command
        { runner := "custom", runnerargs := [], ampbin := "amp",
          ampallowall := false, opencodebin := "opencode",
          opencodeformat := "default", opencodemodel := none,
          opencodeagent := none, opencodeattach := none,
          customcmd := some ["run", "--msg", "{PROMPT}"] }
        "hello" none none none none
      = .ok ["run", "--msg", "hello"] :=
  (runner_command_custom_spec _ _ rfl rfl).1 rfl rfl

/-- C1: a cycle whose combined output matches the default completion
sentinel case-insensitively stops the loop with exit code 0, whatever the
subprocess exit code was; and the loop's outcome never depends on the
subprocess exit codes at all (outputs and ledgers equal implies outcomes
equal), so a non-zero exit alone never stops or fails the loop. -/
theorem loop_sentinel_stops_and_rc_never_does :
    (∀ (prd : JsonDict) (rest : List IterInput) (rc : Int)
        (combined : String) (p2 : Option JsonDict),
      prd_done prd = false → sentinel_search combined = true →
      loop_iters sentinel_search false
        ({ prdAtStart := some prd, runResult := some (rc, combined),
           prdAfterRun := p2 } :: rest) = .ok (0, 1))
    ∧ (∀ (sent : String → Bool) (dryrun : Bool) (xs ys : List IterInput),
      List.Forall₂ sameExceptRc xs ys →
      loop_iters sent dryrun xs = loop_iters sent dryrun ys) := by
  constructor
  · intro prd rest rc combined p2 hdone hsent
    simp [loop_iters, hdone, hsent]
  · intro sent dryrun xs ys h
    induction h with
    | nil => rfl
    | @cons a b l1 l2 hab htail ih =>
      obtain ⟨h1, h2, h3⟩ := hab
      unfold loop_iters
      rw [h1]
      cases hb : b.prdAtStart with
      | none => rfl
      | some prd =>
        by_cases hd : prd_done prd = true
        · simp [hd]
        · rw [Bool.not_eq_true] at hd
          by_cases hdr : dryrun = true
          · simp [hd, hdr]
          · rw [Bool.not_eq_true] at hdr
            subst hdr
            cases ha : a.runResult with
            | none =>
              cases hbr : b.runResult with
              | none => simp [hd, ih]
              | some vb =>
                rw [ha, hbr] at h3
                simp at h3
            | some va =>
              cases hbr : b.runResult with
              | none =>
                rw [ha, hbr] at h3
                simp at h3
              | some vb =>
                rw [ha, hbr] at h3
                obtain ⟨ra, ca⟩ := va
                obtain ⟨rb, cb⟩ := vb
                simp only [Option.map_some'] at h3
                have hcc : ca = cb := by
                  simpa using h3
                subst hcc
                by_cases hs : sent ca = true
                · simp [hd, hs]
                · rw [Bool.not_eq_true] at hs
                  rw [h2]
                  cases hb2 : b.prdAfterRun with
                  | none => simp [hd, hs]
                  | some prd2 =>
                    by_cases hd2 : prd_done prd2 = true
                    · simp [hd, hs, hd2]
                    · rw [Bool.not_eq_true] at hd2
                      simp [hd, hs, hd2, ih]

/-- Witness for C1: a mixed-case sentinel in the output stops the loop
with exit 0 at exit code 7; and two runs differing only in exit codes (5
versus 0) have equal outcomes. -/
theorem loop_sentinel_stops_and_rc_never_does_witness :
    loop_iters sentinel_search false
        ({ prdAtStart :=
            some [("userStories",
              Json.arr [Json.obj [("passes", Json.bool false)]])],
           runResult := some (7, "blah <pRoMiSe> COMPLETE </PROMISE> done"),
           prdAfterRun := none } :: []) = .ok (0, 1)
    ∧ loop_iters sentinel_search false
        [{ prdAtStart :=
            some [("userStories",
              Json.arr [Json.obj [("passes", Json.bool false)]])],
           runResult := some (5, "no match here"), prdAfterRun := none }]
      = loop_iters sentinel_search false
        [{ prdAtStart :=
            some [("userStories",
              Json.arr [Json.obj [("passes", Json.bool false)]])],
           runResult := some (0, "no match here"), prdAfterRun := none }] :=
  ⟨loop_sentinel_stops_and_rc_never_does.1 _ [] 7 _ none rfl (by decide),
   loop_sentinel_stops_and_rc_never_does.2 sentinel_search false _ _
     (List.Forall₂.cons ⟨rfl, rfl, rfl⟩ List.Forall₂.nil)⟩

theorem obsLines_cons_line (e : ℚ) (s : String)
    (rest : List (ℚ × PollObs)) :
    obsLines ((e, PollObs.line s) :: rest) = s :: obsLines rest := rfl

theorem obsLines_cons_idle (e : ℚ) (rest : List (ℚ × PollObs)) :
    obsLines ((e, PollObs.idle) :: rest) = obsLines rest := rfl

theorem run_tee_go_timeout (t : Nat) (termRc : Int)
    (pre : List (ℚ × PollObs)) (el : ℚ) (o : PollObs)
    (rest : List (ℚ × PollObs)) (log comb : List String)
    (hpre : ∀ p ∈ pre, p.1 ≤ (t : ℚ) ∧ ∀ rc, ¬ p.2 = PollObs.exited rc)
    (hel : el > (t : ℚ)) :
    run_tee_go (some t) termRc (pre ++ (el, o) :: rest) log comb
      = some ⟨termRc, String.join (comb ++ obsLines pre),
          String.join ((log ++ obsLines pre) ++ [timeoutMarker t]),
          true⟩ := by
  induction pre generalizing log comb with
  | nil =>
    rw [List.nil_append]
    unfold run_tee_go
    rw [if_pos ⟨rfl, hel⟩]
    simp [obsLines]
  | cons p pre' ih =>
    obtain ⟨e1, o1⟩ := p
    have hp := hpre (e1, o1) (List.mem_cons_self _ _)
    rw [List.cons_append]
    unfold run_tee_go
    rw [if_neg (fun hand => absurd hand.2 (not_lt.mpr hp.1))]
    have hpre' : ∀ p ∈ pre', p.1 ≤ (t : ℚ)
        ∧ ∀ rc, ¬ p.2 = PollObs.exited rc :=
      fun p hq => hpre p (List.mem_cons_of_mem _ hq)
    cases o1 with
    | line s =>
      dsimp only
      rw [ih (log ++ [s]) (comb ++ [s]) hpre', obsLines_cons_line]
      simp [List.append_assoc]
    | idle =>
      dsimp only
      rw [ih log comb hpre', obsLines_cons_idle]
    | exited rc => exact absurd rfl (hp.2 rc)

/-- Counterexample to C4 as stated: in a run with a 1-second timeout that
emitted one line and then exceeded the timeout, the returned
combined-output buffer is exactly the captured line and does not contain
the timeout marker — the marker goes to the log file only; moreover, with
the terminated process reporting exit code 0, the returned code is 0, not
a non-zero-equivalent. -/
theorem run_tee_timeout_marker_in_log_not_combined :
    run_tee (some 1) 0 [((0 : ℚ), PollObs.line "hello\n"),
        ((2 : ℚ), PollObs.idle)]
      = some ⟨0, "hello\n",
          "hello\n\n[wrapper] timeout after 1s; terminating process\n",
          true⟩
    ∧ strContains "hello\n" "[wrapper] timeout" = false
    ∧ strContains
        "hello\n\n[wrapper] timeout after 1s; terminating process\n"
        "[wrapper] timeout" = true := by
  refine ⟨?_, by decide, by decide⟩
  rfl

/-- C4 (amended): when elapsed time exceeds the configured timeout at a
poll-loop head, `run_tee` stops the run as timed out and returns the exit
code the terminated process reports, a combined buffer holding exactly the
lines captured before the timeout, and a log file holding those lines plus
the timeout marker line; a loop cycle whose run came back this way (no
sentinel in the output, ledger still unfinished) proceeds to the next
cycle rather than stopping or aborting. -/
theorem run_tee_timeout_spec (t : Nat) (termRc : Int)
    (pre : List (ℚ × PollObs)) (el : ℚ) (o : PollObs)
    (rest : List (ℚ × PollObs))
    (hpre : ∀ p ∈ pre, p.1 ≤ (t : ℚ) ∧ ∀ rc, ¬ p.2 = PollObs.exited rc)
    (hel : el > (t : ℚ)) :
    run_tee (some t) termRc (pre ++ (el, o) :: rest)
      = some ⟨termRc, String.join (obsLines pre),
          String.join (obsLines pre ++ [timeoutMarker t]), true⟩
    ∧ ∀ (prd prd2 : JsonDict) (rest2 : List IterInput)
        (sent : String → Bool),
      prd_done prd = false → sent (String.join (obsLines pre)) = false →
      prd_done prd2 = false →
      loop_iters sent false
        ({ prdAtStart := some prd,
           runResult := some (termRc, String.join (obsLines pre)),
           prdAfterRun := some prd2 } :: rest2)
        = (loop_iters sent false rest2).map (fun r => (r.1, r.2 + 1)) := by
  constructor
  · have h := run_tee_go_timeout t termRc pre el o rest [] [] hpre hel
    unfold run_tee
    rw [h]
    simp
  · intro prd prd2 rest2 sent hd hs hd2
    simp [loop_iters, hd, hs, hd2]

/-- Witness for the amended C4: a concrete timed-out trace, and the loop
proceeding past it. -/
theorem run_tee_timeout_spec_witness :
    run_tee (some 1) (-15) [((0 : ℚ), PollObs.line "a\n"),
        ((2 : ℚ), PollObs.idle)]
      = some ⟨-15, "a\n",
          "a\n\n[wrapper] timeout after 1s; terminating process\n", true⟩
    ∧ loop_iters sentinel_search false
        [{ prdAtStart :=
            some [("userStories",
              Json.arr [Json.obj [("passes", Json.bool false)]])],
           runResult := some (-15, "a\n"),
           prdAfterRun :=
            some [("userStories",
              Json.arr [Json.obj [("passes", Json.bool false)]])] }]
      = (loop_iters sentinel_search false []).map
          (fun r => (r.1, r.2 + 1)) := by
  have hpre : ∀ p ∈ ([((0 : ℚ), PollObs.line "a\n")] :
      List (ℚ × PollObs)), p.1 ≤ ((1 : Nat) : ℚ)
      ∧ ∀ rc, ¬ p.2 = PollObs.exited rc := by
    intro p hp
    rw [List.mem_singleton] at hp
    subst hp
    exact ⟨by norm_num, fun rc h => PollObs.noConfusion h⟩
  have h := run_tee_timeout_spec 1 (-15) [((0 : ℚ), PollObs.line "a\n")]
    2 PollObs.idle [] hpre (by norm_num)
  exact ⟨h.1, h.2 _ _ [] sentinel_search rfl (by decide) rfl⟩

/-- C8: once the branch-change archival reaches its copy block, a failure
injected after any number of completed copy/snapshot steps is caught
inside `maybe_archive`: the call still returns, reporting only the
archival warning, and the `entry` slice proceeds to run the iteration
loop exactly as it would have with a successful archive. -/
theorem archive_failure_warns_never_aborts
    (parse : String → Option JsonDict) (dump : JsonDict → String)
    (now date : String) (k : Nat)
    (state prdfile progressfile lastbranchfile : String) (fs : FS)
    (prd : JsonDict)
    (hprd : ¬ fsGet fs prdfile = none)
    (hlast : ¬ fsGet fs lastbranchfile = none)
    (hload : load_json parse dump fs prdfile PRDTEMPLATE
      = (Except.ok prd, fs))
    (hcur : ¬ prd_branch prd = "")
    (hlastne : ¬ pyStrip ((fsGet fs lastbranchfile).getD "") = "")
    (hdiff : ¬ prd_branch prd
      = pyStrip ((fsGet fs lastbranchfile).getD "")) :
    (∃ fs1, maybe_archive parse dump now date (some k) state prdfile
        progressfile lastbranchfile fs
      = .ok (fs1, ["warn: failed to archive old state"]))
    ∧ ∀ (sent : String → Bool) (dryrun : Bool) (inputs : List IterInput),
      entry_main parse dump now date (some k) state prdfile progressfile
          lastbranchfile fs sent dryrun inputs
        = loop_iters sent dryrun inputs := by
  have hex1 : fsExists fs prdfile = true := by
    unfold fsExists
    cases hg : fsGet fs prdfile with
    | none => exact absurd hg hprd
    | some c => rfl
  have hex2 : fsExists fs lastbranchfile = true := by
    unfold fsExists
    cases hg : fsGet fs lastbranchfile with
    | none => exact absurd hg hlast
    | some c => rfl
  have hma : maybe_archive parse dump now date (some k) state prdfile
      progressfile lastbranchfile fs
    = .ok (applyOps ((archiveOps prdfile progressfile (state ++ "/logs")
          (state ++ "/archive/" ++ date ++ "-" ++ safe_folder_name
            (pyStrip ((fsGet fs lastbranchfile).getD ""))) now).take k)
        fs, ["warn: failed to archive old state"]) := by
    unfold maybe_archive
    rw [if_neg (show ¬ ((!fsExists fs prdfile
        || !fsExists fs lastbranchfile) = true) by simp [hex1, hex2])]
    rw [hload]
    dsimp only
    rw [if_neg (show ¬ (((prd_branch prd = "")
        || (pyStrip ((fsGet fs lastbranchfile).getD "") = "")
        || (prd_branch prd
            = pyStrip ((fsGet fs lastbranchfile).getD ""))) = true) by
      simp [hcur, hlastne, hdiff])]
  refine ⟨⟨_, hma⟩, ?_⟩
  intro sent dryrun inputs
  unfold entry_main
  rw [hload]
  dsimp only
  rw [hma]

/-- Witness for C8: a concrete branch change whose copy block fails after
its first step still lets the run reach the loop (which here exhausts an
empty iteration budget). -/
theorem archive_failure_warns_never_aborts_witness :
    entry_main (fun _ => some [("branchName", Json.str "feature-b")])
        (fun _ => "") "NOW" "2026-01-01" (some 1) ".ralph" "prd.json"
        "progress.txt" ".ralph/.last-branch"
        [("prd.json", "x"), (".ralph/.last-branch", "feature-a\n")]
        sentinel_search false [] = .ok (1, 0) := by
  have h := (archive_failure_warns_never_aborts
    (fun _ => some [("branchName", Json.str "feature-b")])
    (fun _ => "") "NOW" "2026-01-01" 1 ".ralph" "prd.json"
    "progress.txt" ".ralph/.last-branch"
    [("prd.json", "x"), (".ralph/.last-branch", "feature-a\n")]
    [("branchName", Json.str "feature-b")]
    (by decide) (by decide) rfl (by decide) (by decide) (by decide)).2
    sentinel_search false []
  rw [h]
  rfl

end MajorAlph
